import Mathlib

/-!
Verification of the peer-connection bridge of the `camas/file-transfer`
repository against its natural-language specification.

The Rust source is shallowly embedded:
- pure functions (`src/peerjs/peerid.rs`, the error-type mappings of
  `src/peerjs/client.rs` and `src/peerjs/dataconnection.rs`) become Lean
  functions on `String` / inductive error types;
- the callback-to-channel bridge of `src/peerjs/ffi.rs` (a bounded tokio
  mpsc channel fed from `spawn_local` tasks) becomes an explicit queue
  state machine;
- the `tokio::select!` races (`src/utils.rs` `timeout`,
  `Client::wait_for_open`, `DataConnection::wait_for_open`) become
  functions from the completion times of the raced event sources to the
  list of outcomes the scheduler can produce (the list has several
  elements only when two sources complete at the same instant, where the
  random polling order of `select!` decides);
- the session and per-connection drivers of `src/components/send.rs` and
  `src/components/receive.rs` become state-transformer functions on a
  record of the visible status text and the cancellation flag.

Randomness (`rand::thread_rng` in `peerid.rs`) is modelled by
quantifying over the stream of draws, one `Fin 36` per drawn symbol.
-/

/-! ## Identifier (src/peerjs/peerid.rs) -/

/-- The fixed 36-symbol alphabet `A`-`Z`, `0`-`9` (`ALPHABET` in
`peerid.rs`; the Rust constant is the corresponding byte string). -/
def ALPHABET : List Char := "ABCDEFGHIJKLMNOPQRSTUVWXYZ0123456789".data

/-- `PeerID { base_id, full_id }` from `peerid.rs`. -/
structure PeerID where
  base_id : String
  full_id : String
deriving DecidableEq, Repr

/-- `PeerID::valid_base`: every character of `base_id` is in the
alphabet.  (Rust iterates over the UTF-8 bytes; since every alphabet
symbol is ASCII, a string passes the byte check iff every character is
an alphabet character, so the character-level check is equivalent.) -/
def PeerID.valid_base (base_id : String) : Bool :=
  base_id.data.all (fun c => ALPHABET.contains c)

/-- The fixed namespace string prepended to the base id in
`PeerID::new`: `full_id = format!("camas-file-transfer-{base_id}")`. -/
def fullIdOf (base_id : String) : String :=
  "camas-file-transfer-" ++ base_id

/-- `PeerID::new`. -/
def PeerID.new (base_id : String) : Option PeerID :=
  if PeerID.valid_base base_id then
    some { base_id := base_id, full_id := fullIdOf base_id }
  else
    none

/-- `PeerID::new_short_id`: additionally requires length exactly 4.
(Rust compares the byte length; for the only strings that can pass
`valid_base` the byte length equals the character count, and a string
failing `valid_base` is rejected either way, so the character count is
an equivalent model.) -/
def PeerID.new_short_id (base_id : String) : Option PeerID :=
  if base_id.length ≠ 4 ∨ ¬ PeerID.valid_base base_id then none
  else PeerID.new base_id

/-- One drawn alphabet symbol: `ALPHABET[rng.gen_range(0..36)]`. -/
def alphaChar (i : Fin 36) : Char :=
  ALPHABET.get (Fin.cast (by decide) i)

/-- `random_alphabet_string`: `len` symbols drawn from the alphabet.
The random number generator is modelled as the stream `rng` of its
draws, the draw at position `i` selecting `ALPHABET[rng i]`. -/
def random_alphabet_string (rng : Nat → Fin 36) (len : Nat) : String :=
  ⟨(List.range len).map (fun i => alphaChar (rng i))⟩

/-- `PeerID::new_random_short_id`.  The Rust function unwraps the inner
`PeerID::new`; the model keeps the `Option` so that "the unwrap never
panics" is expressible as the result being `some`. -/
def PeerID.new_random_short_id (rng : Nat → Fin 36) : Option PeerID :=
  PeerID.new (random_alphabet_string rng 4)

/-- `PeerID::new_random_long_id`, with the same unwrap convention. -/
def PeerID.new_random_long_id (rng : Nat → Fin 36) : Option PeerID :=
  PeerID.new (random_alphabet_string rng 10)

/-! ## Error taxonomy (src/peerjs/ffi.rs, src/peerjs/client.rs,
src/peerjs/dataconnection.rs) -/

/-- `CHANNEL_BUFFER_SIZE` (src/peerjs/mod.rs): the capacity of every
bounded event queue and of the error broadcast channel. -/
def CHANNEL_BUFFER_SIZE : Nat := 100

/-- A provider error object (the `Error` extern type of `ffi.rs`): its
reported `type` string plus an opaque payload standing for the rest of
the underlying JS value (`value.into()` keeps the whole object, so the
model keeps the whole `FfiError`). -/
structure FfiError where
  type_ : String
  payload : Nat
deriving DecidableEq, Repr

/-- `ClientError` (client.rs). -/
inductive ClientError where
  | browserIncompatible
  | disconnected
  | invalidID
  | invalidKey
  | network
  | peerUnavailable
  | sslUnavailable
  | serverError
  | socketError
  | socketClosed
  | unavailableID
  | webRTC (raw : FfiError)
  | openCallbackClosed
  | connectionCallbackClosed
  | errorCallbackClosed
  | noError
  | unknown (raw : FfiError)
deriving DecidableEq, Repr

/-- `impl From<ffi::Error> for ClientError` (client.rs): a Rust `match`
on the reported type string, embedded as the equivalent chain of
equality tests ending in the `Unknown(raw)` catch-all. -/
def ClientError.fromFfi (e : FfiError) : ClientError :=
  if e.type_ = "browser-incompatible" then .browserIncompatible
  else if e.type_ = "disconnected" then .disconnected
  else if e.type_ = "invalid-id" then .invalidID
  else if e.type_ = "invalid-key" then .invalidKey
  else if e.type_ = "network" then .network
  else if e.type_ = "peer-unavailable" then .peerUnavailable
  else if e.type_ = "ssl-unavailable" then .sslUnavailable
  else if e.type_ = "server-error" then .serverError
  else if e.type_ = "socket-error" then .socketError
  else if e.type_ = "socket-closed" then .socketClosed
  else if e.type_ = "unavailable-id" then .unavailableID
  else if e.type_ = "webrtc" then .webRTC e
  else .unknown e

/-- The twelve type strings the conversion recognizes. -/
def recognizedClientErrorTypes : List String :=
  ["browser-incompatible", "disconnected", "invalid-id", "invalid-key",
   "network", "peer-unavailable", "ssl-unavailable", "server-error",
   "socket-error", "socket-closed", "unavailable-id", "webrtc"]

/-- The result of one `broadcast::Receiver::recv` call on the client's
error multicast (tokio broadcast semantics): a delivered error, or the
channel is closed, or the receiver lagged more than the buffer size
behind the send position and missed `n` events. -/
inductive BroadcastRecv where
  | ok (e : ClientError)
  | closed
  | lagged (n : Nat)
deriving DecidableEq, Repr

/-- `PeerErrorHandle::recv` (client.rs): `Ok(v)` yields the error value,
and every failed receive — the Rust `Err(_)` arm, covering both the
closed case and the lagged case — yields `ErrorCallbackClosed`. -/
def PeerErrorHandle.recv : BroadcastRecv → ClientError
  | .ok e => e
  | .closed => .errorCallbackClosed
  | .lagged _ => .errorCallbackClosed

/-- `DataConnectionError` (dataconnection.rs). -/
inductive DataConnectionError where
  | invalidCast (detail : String)
  | dataCallbackClosed
  | openCallbackClosed
  | closeCallbackClosed
  | errorCallbackClosed
  | peerError (e : ClientError)
  | unknown (raw : FfiError)
deriving DecidableEq, Repr

/-- `impl From<ffi::Error> for DataConnectionError` (dataconnection.rs):
every reported type string on a data-connection error channel falls
through to `Unknown(raw)`. -/
def DataConnectionError.fromFfi (e : FfiError) : DataConnectionError :=
  .unknown e

/-- `recv_data_error` (dataconnection.rs): the payload an error-channel
receive resolves to — a delivered provider error converted with the
`From` impl, or `ErrorCallbackClosed` when the channel is closed. -/
def recv_data_error : Option FfiError → DataConnectionError
  | some e => DataConnectionError.fromFfi e
  | none => .errorCallbackClosed

/-! ## The callback-to-channel bridge (src/peerjs/ffi.rs)

Every `register_callback` / `register_arg_callback` closure runs
`spawn_local(async move { let _ = callback_tx.send(v).await; })`: the
callback itself only spawns a task and returns, and the spawned task
performs an awaiting `mpsc::Sender::send` — when the bounded queue is
full the task parks until the receiver frees a slot.  `spawn_local`
schedules tasks in spawn order and the tokio mpsc semaphore hands freed
permits to waiting senders in arrival order, so the bridge is modelled
by a queue of enqueued items plus a queue of parked send tasks. -/
structure MpscChannel (α : Type) where
  queue : List α
  waiting : List α
deriving DecidableEq, Repr

/-- A freshly registered channel: `mpsc::channel(CHANNEL_BUFFER_SIZE)`. -/
def MpscChannel.new {α : Type} : MpscChannel α :=
  { queue := [], waiting := [] }

/-- One callback invocation with payload `a`: the spawned send task
enqueues if the queue has a free slot and otherwise parks behind any
earlier parked senders.  The function is total and returns at once —
the producing callback itself never suspends or blocks. -/
def MpscChannel.fire {α : Type} (s : MpscChannel α) (a : α) : MpscChannel α :=
  if s.queue.length < CHANNEL_BUFFER_SIZE then
    { s with queue := s.queue ++ [a] }
  else
    { s with waiting := s.waiting ++ [a] }

/-- A sequence of callback invocations in fire order. -/
def MpscChannel.fireAll {α : Type} (s : MpscChannel α) (l : List α) : MpscChannel α :=
  l.foldl MpscChannel.fire s

/-- `mpsc::Receiver::recv`: takes the oldest queued item; the freed slot
is handed to the oldest parked sender, whose payload joins the queue.
On an empty queue the receive would suspend, modelled as `none`. -/
def MpscChannel.recv {α : Type} (s : MpscChannel α) : Option α × MpscChannel α :=
  match s.queue, s.waiting with
  | [], _ => (none, s)
  | x :: rest, [] => (some x, { queue := rest, waiting := [] })
  | x :: rest, w :: ws => (some x, { queue := rest ++ [w], waiting := ws })

/-- `n` successive receives; stops early if the queue empties. -/
def MpscChannel.recvN {α : Type} (s : MpscChannel α) : Nat → List α × MpscChannel α
  | 0 => ([], s)
  | Nat.succ n =>
    match MpscChannel.recv s with
    | (none, s1) => ([], s1)
    | (some x, s1) =>
      let r := MpscChannel.recvN s1 n
      (x :: r.1, r.2)

/-- Channel states reachable from `new` by fires and receives: the
queue never exceeds the capacity, and senders park only while the queue
is full. -/
def MpscChannel.inv {α : Type} (s : MpscChannel α) : Prop :=
  s.queue.length ≤ CHANNEL_BUFFER_SIZE ∧
  (s.waiting ≠ [] → s.queue.length = CHANNEL_BUFFER_SIZE)

/-- All items currently held by the bridge, in delivery order. -/
def MpscChannel.toList {α : Type} (s : MpscChannel α) : List α :=
  s.queue ++ s.waiting

/-! ## Races over event sources (src/utils.rs, src/peerjs/client.rs,
src/peerjs/dataconnection.rs)

A deterministic event source is `Option (Nat × α)`: it either never
completes (`none`) or completes at instant `t` with payload `a`.  A
`tokio::select!` over such sources can resolve to any branch whose
completion instant is no later than every other branch; at a strict
minimum the winner is unique, and at a tie the random polling order of
`select!` picks among the earliest, so a race is modelled as the list
of outcomes the scheduler can produce. -/
def winsAgainst {β : Type} (t : Nat) : Option (Nat × β) → Bool
  | none => true
  | some (u, _) => t ≤ u

/-- Possible resolutions of a two-branch `select!`. -/
def select2 {α β : Type} (a : Option (Nat × α)) (b : Option (Nat × β)) :
    List (Nat × (α ⊕ β)) :=
  (match a with
   | some (t, x) => if winsAgainst t b then [(t, Sum.inl x)] else []
   | none => []) ++
  (match b with
   | some (u, y) => if winsAgainst u a then [(u, Sum.inr y)] else []
   | none => [])

/-- Possible resolutions of a three-branch `select!`. -/
def select3 {α β γ : Type} (a : Option (Nat × α)) (b : Option (Nat × β))
    (c : Option (Nat × γ)) : List (Nat × (α ⊕ β ⊕ γ)) :=
  (match a with
   | some (t, x) =>
     if winsAgainst t b && winsAgainst t c then [(t, Sum.inl x)] else []
   | none => []) ++
  (match b with
   | some (u, y) =>
     if winsAgainst u a && winsAgainst u c then [(u, Sum.inr (Sum.inl y))] else []
   | none => []) ++
  (match c with
   | some (w, z) =>
     if winsAgainst w a && winsAgainst w b then [(w, Sum.inr (Sum.inr z))] else []
   | none => [])

/-- The two outcomes of `utils::timeout`: `Ok(v)` or `Err(Elapsed)`. -/
inductive TimeoutOutcome (α : Type) where
  | ok (v : α)
  | elapsed
deriving DecidableEq, Repr

/-- `utils::timeout(duration, function)` (utils.rs): a `select!` of the
operation against `sleep(duration)`, which completes at instant `d`.
The operation is given by the list of completions the scheduler can
drive it to (`[]` when it never completes); an operation completion no
later than `d` can win as `Ok`, and the deadline wins as `Err(Elapsed)`
when the operation never completes or completes no earlier than `d`.
The loser is dropped: no losing completion appears in the result. -/
def timeoutRun {α : Type} (d : Nat) (op : List (Nat × α)) :
    List (TimeoutOutcome α) :=
  op.filterMap (fun tv => if tv.1 ≤ d then some (TimeoutOutcome.ok tv.2) else none) ++
  (if op.isEmpty || op.any (fun tv => d ≤ tv.1) then [TimeoutOutcome.elapsed] else [])

/-- `Client::wait_for_open` (client.rs): a `select!` of the client's
own `open` receiver (payload `some ()` for a delivered event, `none`
when the callback channel is closed) against
`PeerErrorHandle::recv` on the error multicast. -/
def Client.wait_for_open (openS : Option (Nat × Option Unit))
    (errS : Option (Nat × BroadcastRecv)) :
    List (Nat × Except ClientError Unit) :=
  (select2 openS errS).map (fun tc =>
    (tc.1,
     match tc.2 with
     | Sum.inl (some _) => Except.ok ()
     | Sum.inl none => Except.error ClientError.openCallbackClosed
     | Sum.inr br => Except.error (PeerErrorHandle.recv br)))

/-- `DataConnection::wait_for_open` (dataconnection.rs): a `select!` of
the connection's own `open` receiver, its own error channel through
`recv_data_error`, and the parent client's error multicast through
`PeerErrorHandle::recv`, the last wrapped as `PeerError`. -/
def DataConnection.wait_for_open (openS : Option (Nat × Option Unit))
    (errS : Option (Nat × Option FfiError))
    (peerS : Option (Nat × BroadcastRecv)) :
    List (Nat × Except DataConnectionError Unit) :=
  (select3 openS errS peerS).map (fun tc =>
    (tc.1,
     match tc.2 with
     | Sum.inl (some _) => Except.ok ()
     | Sum.inl none => Except.error DataConnectionError.openCallbackClosed
     | Sum.inr (Sum.inl oe) => Except.error (recv_data_error oe)
     | Sum.inr (Sum.inr br) =>
       Except.error (DataConnectionError.peerError (PeerErrorHandle.recv br))))

/-! ## Display texts (the `thiserror` attributes) and the drivers
(src/components/send.rs, src/components/receive.rs) -/

/-- Stand-in for the `Debug` rendering of an opaque `JsValue` (the
browser-side representation is not specified by the source). -/
def jsValueDebug (e : FfiError) : String :=
  "JsValue(" ++ e.type_ ++ ")"

/-- The `Display` text of `ClientError` (the `#[error]` attributes in
client.rs). -/
def ClientError.displayString : ClientError → String
  | .browserIncompatible =>
    "The client\x27s browser does not support some or all WebRTC features that you are trying to use"
  | .disconnected =>
    "You\x27ve already disconnected this peer from the server and can no longer make any new connections on it"
  | .invalidID => "The ID passed into the Peer constructor contains illegal characters"
  | .invalidKey =>
    "The API key passed into the Peer constructor contains illegal characters or is not in the system (cloud server only)"
  | .network => "Lost or cannot establish a connection to the signalling server"
  | .peerUnavailable => "The peer you\x27re trying to connect to does not exist"
  | .sslUnavailable =>
    "PeerJS is being used securely, but the cloud server does not support SSL. Use a custom PeerServer"
  | .serverError => "Unable to reach the server"
  | .socketError => "An error from the underlying socket"
  | .socketClosed => "The underlying socket closed unexpectedly"
  | .unavailableID => "The ID passed into the Peer constructor is already taken"
  | .webRTC _ => "Native WebRTC error"
  | .openCallbackClosed => "Open callback closed unexpectedly"
  | .connectionCallbackClosed => "Connection callback closed unexpectedly"
  | .errorCallbackClosed => "Error callback closed unexpectedly"
  | .noError => "Not an error. Should never be thrown"
  | .unknown raw => "Unknown error: " ++ jsValueDebug raw

/-- The `Display` text of `DataConnectionError` (dataconnection.rs). -/
def DataConnectionError.displayString : DataConnectionError → String
  | .invalidCast detail => "Couldn\x27t cast data to expected type: " ++ detail
  | .dataCallbackClosed => "Data callback closed unexpectedly"
  | .openCallbackClosed => "Open callback closed unexpectedly"
  | .closeCallbackClosed => "Close callback closed unexpectedly"
  | .errorCallbackClosed => "Error callback closed unexpectedly"
  | .peerError e => "Peer error: " ++ e.displayString
  | .unknown raw => "Unknown error: " ++ jsValueDebug raw

/-- `ReceiveConnectionsError` (send.rs). -/
inductive ReceiveConnectionsError where
  | openError (e : ClientError)
  | openTimedOut
  | receiveConnectionError (e : ClientError)
deriving DecidableEq, Repr

/-- The `Display` text of `ReceiveConnectionsError` (send.rs). -/
def ReceiveConnectionsError.displayString : ReceiveConnectionsError → String
  | .openError e => "Error while connecting to PeerJS: " ++ e.displayString
  | .openTimedOut => "PeerJS open timed out"
  | .receiveConnectionError e => "Error while receiving connection: " ++ e.displayString

/-- `SendFileError` (send.rs). -/
inductive SendFileError where
  | openDataConnectionError (e : DataConnectionError)
  | openDataConnectionTimedOut
  | closeError (e : DataConnectionError)
deriving DecidableEq, Repr

/-- The `Display` text of `SendFileError` (send.rs). -/
def SendFileError.displayString : SendFileError → String
  | .openDataConnectionError e =>
    "Error while opening data connection: " ++ e.displayString
  | .openDataConnectionTimedOut => "Data connection open timed out"
  | .closeError e => "Error while waiting for close: " ++ e.displayString

/-- `ReceiveFileError` (receive.rs). -/
inductive ReceiveFileError where
  | openPeerError (e : ClientError)
  | openTimedOut
  | openDataConnectionError (e : DataConnectionError)
  | openDataConnectionTimedOut
  | receiveFilenameDataConnectionError (e : DataConnectionError)
  | receiveDataDataConnectionError (e : DataConnectionError)
deriving DecidableEq, Repr

/-- The `Display` text of `ReceiveFileError` (receive.rs). -/
def ReceiveFileError.displayString : ReceiveFileError → String
  | .openPeerError e => "Error while connecting to PeerJS: " ++ e.displayString
  | .openTimedOut => "Connecting to PeerJS server timed out"
  | .openDataConnectionError e =>
    "Error while opening data connection: " ++ e.displayString
  | .openDataConnectionTimedOut => "Data connection open timed out"
  | .receiveFilenameDataConnectionError e =>
    "Error while receiving file info: " ++ e.displayString
  | .receiveDataDataConnectionError e =>
    "Error while receiving file info: " ++ e.displayString

/-- The observable state a session driver updates: the visible status
text of the session and the session cancellation token. -/
structure DriverState where
  statusText : String
  cancelled : Bool
deriving DecidableEq, Repr

/-- The observable state of one accepted connection inside a sender
session: the connection's own status text line, and the shared session
cancellation token. -/
structure ConnectionState where
  status : String
  sessionCancelled : Bool
deriving DecidableEq, Repr

/-- `receive_connections` (send.rs), the sender's session driver: races
`receive_connections_inner` against the cancellation token (`none` =
cancellation won, the driver returns with no update; `some r` = the
inner routine finished first).  On the first failure it sets the
visible status text to the failure's `Display` text via
`update_peer_status` and raises the cancellation signal. -/
def receive_connections (inner : Option (Except ReceiveConnectionsError Unit))
    (s : DriverState) : DriverState :=
  match inner with
  | none => s
  | some (Except.ok _) => s
  | some (Except.error e) =>
    { statusText := e.displayString, cancelled := true }

/-- `receive_file` (receive.rs), the receiver's session driver, with
the same race convention: on the first failure it sets the status text
via `update_status` and raises the cancellation signal. -/
def receive_file (inner : Option (Except ReceiveFileError Unit))
    (s : DriverState) : DriverState :=
  match inner with
  | none => s
  | some (Except.ok _) => s
  | some (Except.error e) =>
    { statusText := e.displayString, cancelled := true }

/-- `send_file` (send.rs), the per-connection driver of one accepted
connection: races `send_file_inner` against the session cancellation
token; on the first failure it sets that connection's status line via
`update_connection_status` — and nothing else: the session cancellation
token is left as it was. -/
def send_file (inner : Option (Except SendFileError Unit))
    (s : ConnectionState) : ConnectionState :=
  match inner with
  | none => s
  | some (Except.ok _) => s
  | some (Except.error e) =>
    { s with status := e.displayString }

/-! # Lemmas and claim theorems -/

/-! ## Identifier lemmas -/

theorem length_random_alphabet_string (rng : Nat → Fin 36) (len : Nat) :
    (random_alphabet_string rng len).length = len := by
  simp [random_alphabet_string, String.length]

theorem valid_base_random_alphabet_string (rng : Nat → Fin 36) (len : Nat) :
    PeerID.valid_base (random_alphabet_string rng len) = true := by
  have hall : ∀ j : Fin 36, ALPHABET.contains (alphaChar j) = true := by decide
  simp only [PeerID.valid_base, random_alphabet_string, List.all_eq_true]
  intro c hc
  simp only [List.mem_map] at hc
  obtain ⟨i, _, rfl⟩ := hc
  simpa using hall (rng i)

theorem PeerID.new_of_valid (s : String) (h : PeerID.valid_base s = true) :
    PeerID.new s = some { base_id := s, full_id := fullIdOf s } := by
  simp [PeerID.new, h]

/-- C7: every 4- or 10-symbol alphabet string parses to an identifier
with `base` the input and `full` the namespace string followed by the
input; a string with a character outside the alphabet never parses, and
a short-class string of length other than 4 never parses. -/
theorem C7_parse_spec :
    (∀ s : String, (s.length = 4 ∨ s.length = 10) →
      s.data.all (fun c => ALPHABET.contains c) = true →
      PeerID.new s = some { base_id := s, full_id := fullIdOf s }) ∧
    (∀ s : String, s.length = 4 →
      s.data.all (fun c => ALPHABET.contains c) = true →
      PeerID.new_short_id s = some { base_id := s, full_id := fullIdOf s }) ∧
    (∀ s : String, ∀ c ∈ s.data, ALPHABET.contains c = false →
      PeerID.new s = none ∧ PeerID.new_short_id s = none) ∧
    (∀ s : String, s.length ≠ 4 → PeerID.new_short_id s = none) := by
  refine ⟨?_, ?_, ?_, ?_⟩
  · intro s _ hv
    exact PeerID.new_of_valid s hv
  · intro s hlen hv
    have hv' : PeerID.valid_base s = true := hv
    simp [PeerID.new_short_id, hlen, hv', PeerID.new_of_valid s hv']
  · intro s c hc hbad
    have hv : PeerID.valid_base s = false := by
      simp only [PeerID.valid_base]
      rw [List.all_eq_false]
      exact ⟨c, hc, by simpa using hbad⟩
    constructor
    · simp [PeerID.new, hv]
    · simp [PeerID.new_short_id, hv]
  · intro s hlen
    simp [PeerID.new_short_id, hlen]

/-- C7 witness. -/
theorem C7_parse_spec_witness :
    PeerID.new "AB3D" =
      some { base_id := "AB3D", full_id := "camas-file-transfer-AB3D" } ∧
    PeerID.new_short_id "AB3D" =
      some { base_id := "AB3D", full_id := "camas-file-transfer-AB3D" } ∧
    PeerID.new "ab3d" = none ∧
    PeerID.new_short_id "AB3DE" = none := by
  refine ⟨?_, ?_, ?_, ?_⟩
  · exact C7_parse_spec.1 "AB3D" (Or.inl (by decide)) (by decide)
  · exact C7_parse_spec.2.1 "AB3D" (by decide) (by decide)
  · exact (C7_parse_spec.2.2.1 "ab3d" 'a' (by decide) (by decide)).1
  · exact C7_parse_spec.2.2.2 "AB3DE" (by decide)

/-- C8: for every outcome of the random draws, both generators succeed
(the unwrapped inner `PeerID::new` is `some`, so the unwrap cannot
panic) and the generated base is re-accepted by the corresponding parse
with the same base (round-trip). -/
theorem C8_generate_roundtrip (rng : Nat → Fin 36) :
    PeerID.new_random_short_id rng =
      some { base_id := random_alphabet_string rng 4,
             full_id := fullIdOf (random_alphabet_string rng 4) } ∧
    PeerID.new_short_id (random_alphabet_string rng 4) =
      PeerID.new_random_short_id rng ∧
    PeerID.new_random_long_id rng =
      some { base_id := random_alphabet_string rng 10,
             full_id := fullIdOf (random_alphabet_string rng 10) } ∧
    PeerID.new (random_alphabet_string rng 10) =
      PeerID.new_random_long_id rng := by
  have h4 := valid_base_random_alphabet_string rng 4
  have h10 := valid_base_random_alphabet_string rng 10
  have hlen4 := length_random_alphabet_string rng 4
  refine ⟨?_, ?_, ?_, ?_⟩
  · exact PeerID.new_of_valid _ h4
  · simp [PeerID.new_short_id, hlen4, h4, PeerID.new_random_short_id]
  · exact PeerID.new_of_valid _ h10
  · simp [PeerID.new_random_long_id]

/-- C9 counterexample: the empty string parses (its characters are
vacuously all in the alphabet), producing an identifier whose base is
empty — contradicting "base never empty, length exactly 4 or 10". -/
theorem C9_counterexample :
    PeerID.new "" =
      some { base_id := "", full_id := "camas-file-transfer-" } ∧
    ("" : String).length = 0 := by
  constructor
  · rfl
  · rfl

/-- C9 amended: every identifier produced by parse or generate has
`full` equal to the namespace string followed by `base` and a base made
only of alphabet symbols; the short-class parse and the two generators
additionally guarantee a non-empty base of the class length (4 or 10),
but the general parse accepts any alphabet-only string, including the
empty one, so "base never empty, length fixed per class" holds only for
those entry points. -/
theorem C9_amended :
    (∀ s : String, ∀ id : PeerID, PeerID.new s = some id →
      id.full_id = fullIdOf id.base_id ∧
      id.base_id.data.all (fun c => ALPHABET.contains c) = true) ∧
    (∀ s : String, ∀ id : PeerID, PeerID.new_short_id s = some id →
      id.base_id.length = 4 ∧ id.base_id ≠ "") ∧
    (∀ rng : Nat → Fin 36, ∀ id : PeerID,
      PeerID.new_random_short_id rng = some id →
      id.base_id.length = 4 ∧ id.base_id ≠ "") ∧
    (∀ rng : Nat → Fin 36, ∀ id : PeerID,
      PeerID.new_random_long_id rng = some id →
      id.base_id.length = 10 ∧ id.base_id ≠ "") := by
  have hnew : ∀ s : String, ∀ id : PeerID, PeerID.new s = some id →
      id.base_id = s ∧ id.full_id = fullIdOf s ∧
      PeerID.valid_base s = true := by
    intro s id h
    by_cases hv : PeerID.valid_base s = true
    · rw [PeerID.new_of_valid s hv] at h
      cases h
      exact ⟨rfl, rfl, hv⟩
    · simp [PeerID.new, hv] at h
  refine ⟨?_, ?_, ?_, ?_⟩
  · intro s id h
    obtain ⟨hb, hf, hv⟩ := hnew s id h
    subst hb
    exact ⟨hf, hv⟩
  · intro s id h
    by_cases hlen : s.length = 4
    · by_cases hv : PeerID.valid_base s = true
      · have h4 : PeerID.new s = some id := by
          simpa [PeerID.new_short_id, hlen, hv] using h
        obtain ⟨hb, _, _⟩ := hnew s id h4
        rw [hb]
        refine ⟨hlen, ?_⟩
        intro hemp
        rw [hemp] at hlen
        exact absurd hlen (by decide)
      · exfalso
        simp [PeerID.new_short_id, hv] at h
    · exfalso
      simp [PeerID.new_short_id, hlen] at h
  · intro rng id h
    obtain ⟨hb, _, _⟩ := hnew _ id h
    rw [hb]
    have hlen := length_random_alphabet_string rng 4
    refine ⟨hlen, ?_⟩
    intro hemp
    rw [hemp] at hlen
    exact absurd hlen (by decide)
  · intro rng id h
    obtain ⟨hb, _, _⟩ := hnew _ id h
    rw [hb]
    have hlen := length_random_alphabet_string rng 10
    refine ⟨hlen, ?_⟩
    intro hemp
    rw [hemp] at hlen
    exact absurd hlen (by decide)

/-- C9 amended witness. -/
theorem C9_amended_witness :
    ({ base_id := "AB3D", full_id := "camas-file-transfer-AB3D"} : PeerID).full_id
        = fullIdOf "AB3D" ∧
    ("AB3D" : String).data.all (fun c => ALPHABET.contains c) = true ∧
    ("AB3D" : String).length = 4 ∧ ("AB3D" : String) ≠ "" := by
  have h1 := C9_amended.1 "AB3D"
    { base_id := "AB3D", full_id := "camas-file-transfer-AB3D" } (by decide)
  have h2 := C9_amended.2.1 "AB3D"
    { base_id := "AB3D", full_id := "camas-file-transfer-AB3D" } (by decide)
  exact ⟨h1.1, h1.2, h2.1, h2.2⟩

/-! ## Error-mapping theorems -/

/-- C6: the conversion maps each of the twelve recognized type strings
one-to-one to its variant, and every other type string to `Unknown`
carrying the raw value. -/
theorem C6_client_error_mapping :
    (∀ p : Nat,
      ClientError.fromFfi ⟨"browser-incompatible", p⟩ = .browserIncompatible ∧
      ClientError.fromFfi ⟨"disconnected", p⟩ = .disconnected ∧
      ClientError.fromFfi ⟨"invalid-id", p⟩ = .invalidID ∧
      ClientError.fromFfi ⟨"invalid-key", p⟩ = .invalidKey ∧
      ClientError.fromFfi ⟨"network", p⟩ = .network ∧
      ClientError.fromFfi ⟨"peer-unavailable", p⟩ = .peerUnavailable ∧
      ClientError.fromFfi ⟨"ssl-unavailable", p⟩ = .sslUnavailable ∧
      ClientError.fromFfi ⟨"server-error", p⟩ = .serverError ∧
      ClientError.fromFfi ⟨"socket-error", p⟩ = .socketError ∧
      ClientError.fromFfi ⟨"socket-closed", p⟩ = .socketClosed ∧
      ClientError.fromFfi ⟨"unavailable-id", p⟩ = .unavailableID ∧
      ClientError.fromFfi ⟨"webrtc", p⟩ = .webRTC ⟨"webrtc", p⟩) ∧
    (∀ t : String, ∀ p : Nat, t ∉ recognizedClientErrorTypes →
      ClientError.fromFfi ⟨t, p⟩ = .unknown ⟨t, p⟩) := by
  constructor
  · intro p
    refine ⟨rfl, rfl, rfl, rfl, rfl, rfl, rfl, rfl, rfl, rfl, rfl, rfl⟩
  · intro t p h
    simp only [recognizedClientErrorTypes, List.mem_cons, List.not_mem_nil,
      or_false, not_or] at h
    obtain ⟨h1, h2, h3, h4, h5, h6, h7, h8, h9, h10, h11, h12⟩ := h
    simp [ClientError.fromFfi, h1, h2, h3, h4, h5, h6, h7, h8, h9, h10, h11, h12]

/-- C6 witness. -/
theorem C6_client_error_mapping_witness :
    ClientError.fromFfi ⟨"network", 5⟩ = .network ∧
    ClientError.fromFfi ⟨"some-new-type", 5⟩ = .unknown ⟨"some-new-type", 5⟩ := by
  constructor
  · exact ((C6_client_error_mapping.1 5).2.2.2.2).1
  · exact C6_client_error_mapping.2 "some-new-type" 5 (by decide)

/-- C10: any failed receive on the error broadcast channel — closed or
lagged behind the 100-item buffer (the client still alive) — is
reported as `ErrorCallbackClosed`; a successful receive is reported
verbatim. -/
theorem C10_failed_recv_is_callback_closed :
    PeerErrorHandle.recv .closed = .errorCallbackClosed ∧
    (∀ n : Nat, PeerErrorHandle.recv (.lagged n) = .errorCallbackClosed) ∧
    (∀ e : ClientError, PeerErrorHandle.recv (.ok e) = e) ∧
    CHANNEL_BUFFER_SIZE = 100 :=
  ⟨rfl, fun _ => rfl, fun _ => rfl, rfl⟩

/-! ## Bridge-channel lemmas -/

theorem MpscChannel.inv_new {α : Type} : (MpscChannel.new : MpscChannel α).inv := by
  constructor
  · simp [MpscChannel.new, CHANNEL_BUFFER_SIZE]
  · intro h
    simp [MpscChannel.new] at h

theorem MpscChannel.toList_fire {α : Type} (s : MpscChannel α) (a : α)
    (h : s.inv) : (s.fire a).toList = s.toList ++ [a] := by
  by_cases hq : s.queue.length < CHANNEL_BUFFER_SIZE
  · have hw : s.waiting = [] := by
      by_contra hw
      exact absurd (h.2 hw) (Nat.ne_of_lt hq)
    simp [MpscChannel.fire, hq, MpscChannel.toList, hw]
  · simp [MpscChannel.fire, hq, MpscChannel.toList]

theorem MpscChannel.inv_fire {α : Type} (s : MpscChannel α) (a : α)
    (h : s.inv) : (s.fire a).inv := by
  by_cases hq : s.queue.length < CHANNEL_BUFFER_SIZE
  · refine ⟨?_, ?_⟩
    · simp only [MpscChannel.fire, if_pos hq, List.length_append, List.length_cons,
        List.length_nil]
      omega
    · intro hw
      simp only [MpscChannel.fire, if_pos hq] at hw
      exact absurd (h.2 hw) (Nat.ne_of_lt hq)
  · refine ⟨?_, ?_⟩
    · simp only [MpscChannel.fire, if_neg hq]
      exact h.1
    · intro _
      simp only [MpscChannel.fire, if_neg hq]
      have := h.1
      omega

theorem MpscChannel.recv_spec {α : Type} (s : MpscChannel α) (h : s.inv) :
    (s.recv).1 = s.toList.head? ∧ (s.recv).2.toList = s.toList.tail ∧
    (s.recv).2.inv := by
  rcases s with ⟨q, w⟩
  cases q with
  | nil =>
    have hw : w = [] := by
      by_contra hw
      have h2 := h.2 hw
      simp [CHANNEL_BUFFER_SIZE] at h2
    subst hw
    exact ⟨rfl, rfl, h⟩
  | cons x rest =>
    cases w with
    | nil =>
      refine ⟨rfl, rfl, ?_, ?_⟩
      · have h1 := h.1
        simp only [List.length_cons] at h1
        simp only [MpscChannel.recv]
        omega
      · intro hw
        simp [MpscChannel.recv] at hw
    | cons wh wt =>
      refine ⟨rfl, ?_, ?_, ?_⟩
      · simp [MpscChannel.recv, MpscChannel.toList]
      · have h2 := h.2 (by simp)
        simp only [List.length_cons] at h2
        simp only [MpscChannel.recv, List.length_append, List.length_cons,
          List.length_nil]
        omega
      · intro _
        have h2 := h.2 (by simp)
        simp only [List.length_cons] at h2
        simp only [MpscChannel.recv, List.length_append, List.length_cons,
          List.length_nil]
        omega

theorem MpscChannel.recvN_succ {α : Type} (s : MpscChannel α) (m : Nat) :
    s.recvN (m + 1) =
      match s.recv with
      | (none, s1) => ([], s1)
      | (some x, s1) => (x :: (s1.recvN m).1, (s1.recvN m).2) :=
  rfl

theorem MpscChannel.recvN_spec {α : Type} :
    ∀ (n : Nat) (s : MpscChannel α), s.inv → n ≤ s.toList.length →
      (s.recvN n).1 = s.toList.take n := by
  intro n
  induction n with
  | zero =>
    intro s _ _
    rfl
  | succ m ih =>
    intro s hinv hn
    obtain ⟨h1, h2, h3⟩ := MpscChannel.recv_spec s hinv
    cases htl : s.toList with
    | nil =>
      rw [htl] at hn
      simp at hn
    | cons y ys =>
      rcases hr : s.recv with ⟨o, s2⟩
      have ho : o = some y := by
        have hh := h1
        rw [hr, htl] at hh
        simpa using hh
      have hs2 : s2.toList = ys := by
        have hh := h2
        rw [hr, htl] at hh
        simpa using hh
      have hs2inv : s2.inv := by
        have hh := h3
        rw [hr] at hh
        exact hh
      subst ho
      have hlen2 : m ≤ s2.toList.length := by
        rw [hs2]
        rw [htl] at hn
        simpa using Nat.le_of_succ_le_succ hn
      have hih := ih s2 hs2inv hlen2
      rw [MpscChannel.recvN_succ, hr]
      show y :: (s2.recvN m).1 = (y :: ys).take (m + 1)
      rw [hih, hs2, List.take_succ_cons]

theorem MpscChannel.fireAll_spec {α : Type} :
    ∀ (l : List α) (s : MpscChannel α), s.inv →
      (s.fireAll l).toList = s.toList ++ l ∧ (s.fireAll l).inv := by
  intro l
  induction l with
  | nil =>
    intro s h
    exact ⟨by simp [MpscChannel.fireAll], h⟩
  | cons a as ih =>
    intro s h
    have h1 := MpscChannel.toList_fire s a h
    have h2 := MpscChannel.inv_fire s a h
    have hstep : s.fireAll (a :: as) = (s.fire a).fireAll as := rfl
    obtain ⟨ht, hi⟩ := ih (s.fire a) h2
    refine ⟨?_, by rw [hstep]; exact hi⟩
    rw [hstep, ht, h1]
    simp

theorem MpscChannel.recvN_fireAll_new {α : Type} (l : List α) :
    ((MpscChannel.new.fireAll l).recvN l.length).1 = l := by
  obtain ⟨ht, hinv⟩ :=
    MpscChannel.fireAll_spec l MpscChannel.new MpscChannel.inv_new
  have hempty : (MpscChannel.new : MpscChannel α).toList ++ l = l := by
    simp [MpscChannel.new, MpscChannel.toList]
  rw [hempty] at ht
  have := MpscChannel.recvN_spec l.length (MpscChannel.new.fireAll l) hinv
    (by rw [ht])
  rw [ht, List.take_length] at this
  exact this

/-! ## Bridge theorems: C3 and C1 -/

theorem MpscChannel.range100_inv :
    (MpscChannel.new.fireAll (List.range 100) : MpscChannel Nat).inv :=
  (MpscChannel.fireAll_spec (List.range 100) MpscChannel.new
    MpscChannel.inv_new).2

theorem MpscChannel.range100_full :
    (MpscChannel.new.fireAll (List.range 100) : MpscChannel Nat).queue.length =
      CHANNEL_BUFFER_SIZE := by
  obtain ⟨ht, hinv⟩ := MpscChannel.fireAll_spec (List.range 100)
    MpscChannel.new MpscChannel.inv_new
  have hlen : (MpscChannel.new.fireAll (List.range 100) :
      MpscChannel Nat).toList.length = 100 := by
    rw [ht]
    simp [MpscChannel.new, MpscChannel.toList]
  have hq := hinv.1
  have hw : (MpscChannel.new.fireAll (List.range 100) :
        MpscChannel Nat).waiting.length = 0 ∨
      (MpscChannel.new.fireAll (List.range 100) :
        MpscChannel Nat).queue.length = CHANNEL_BUFFER_SIZE := by
    by_cases hww : (MpscChannel.new.fireAll (List.range 100) :
        MpscChannel Nat).waiting = []
    · exact Or.inl (by rw [hww]; rfl)
    · exact Or.inr (hinv.2 hww)
  have hsum : (MpscChannel.new.fireAll (List.range 100) :
        MpscChannel Nat).queue.length +
      (MpscChannel.new.fireAll (List.range 100) :
        MpscChannel Nat).waiting.length = 100 := by
    have hh : (MpscChannel.new.fireAll (List.range 100) :
        MpscChannel Nat).toList.length =
        (MpscChannel.new.fireAll (List.range 100) :
          MpscChannel Nat).queue.length +
        (MpscChannel.new.fireAll (List.range 100) :
          MpscChannel Nat).waiting.length := by
      simp [MpscChannel.toList]
    omega
  simp only [CHANNEL_BUFFER_SIZE] at hq hw ⊢
  omega

/-- C3: event delivery on one Data Connection event kind is FIFO —
firing payloads `[a, b, c]` in that order on a freshly registered
channel makes three successive receives yield `a`, then `b`, then `c`.
-/
theorem C3_fifo_delivery {α : Type} (a b c : α) :
    ((MpscChannel.new.fireAll [a, b, c]).recvN 3).1 = [a, b, c] :=
  MpscChannel.recvN_fireAll_new [a, b, c]

/-- C1 counterexample: fill the queue with payloads `0`-`99` (exactly
capacity 100), then fire payload `100` while the queue is full; 101
successive receives deliver all 101 payloads, ending in `100` — the
event fired on the full queue was parked by its spawned send task and
delivered once capacity freed, not dropped. -/
theorem C1_counterexample :
    (MpscChannel.new.fireAll (List.range 100)).queue.length =
      CHANNEL_BUFFER_SIZE ∧
    (((MpscChannel.new.fireAll (List.range 100)).fire 100).recvN 101).1 =
      List.range 101 := by
  constructor
  · exact MpscChannel.range100_full
  · have h := MpscChannel.recvN_fireAll_new (List.range 101)
    have hsplit : List.range 101 = List.range 100 ++ [100] :=
      @List.range_succ 100
    have hstep : MpscChannel.new.fireAll (List.range 101) =
        (MpscChannel.new.fireAll (List.range 100)).fire 100 := by
      rw [hsplit]
      simp [MpscChannel.fireAll, List.foldl_append]
    have hlen : (List.range 101).length = 101 := by simp
    rw [hlen, hstep] at h
    exact h

/-- C1 amended: when the bounded queue (capacity 100) is full at the
moment an event fires, the enqueue is handed to a detached spawned task
that parks until capacity frees: the payload is appended behind any
already-parked senders and is still delivered, in fire order, once
receives free slots — it is not dropped; the producing callback itself
never suspends or blocks (`fire` is a total, immediately returning
state update; the waiting happens in the spawned task's `send`). -/
theorem C1_amended {α : Type} (s : MpscChannel α) (a : α) (h : s.inv)
    (hfull : s.queue.length = CHANNEL_BUFFER_SIZE) :
    (s.fire a).waiting = s.waiting ++ [a] ∧
    ((s.fire a).recvN (s.toList.length + 1)).1 = s.toList ++ [a] := by
  have hnl : ¬ s.queue.length < CHANNEL_BUFFER_SIZE := by omega
  constructor
  · simp [MpscChannel.fire, hnl]
  · have h1 := MpscChannel.toList_fire s a h
    have h2 := MpscChannel.inv_fire s a h
    have h3 := MpscChannel.recvN_spec (s.toList.length + 1) (s.fire a) h2
      (by rw [h1]; simp)
    rw [h1] at h3
    rw [h3, show s.toList.length + 1 = (s.toList ++ [a]).length by simp,
      List.take_length]

/-- C1 amended witness. -/
theorem C1_amended_witness :
    ((MpscChannel.new.fireAll (List.range 100)).fire 7).waiting =
      (MpscChannel.new.fireAll (List.range 100)).waiting ++ [7] ∧
    (((MpscChannel.new.fireAll (List.range 100)).fire 7).recvN
        ((MpscChannel.new.fireAll (List.range 100)).toList.length + 1)).1 =
      (MpscChannel.new.fireAll (List.range 100)).toList ++ [7] :=
  C1_amended (MpscChannel.new.fireAll (List.range 100)) 7
    MpscChannel.range100_inv MpscChannel.range100_full

/-! ## Race theorems: C2 and C4 -/

/-- C2: if a client-level error `e` is delivered on the parent client's
multicast at instant `tp` while the connection's `wait_until_open` is
outstanding, and neither the connection's own open event nor its own
error channel resolves strictly first, the wait resolves — with the
error wrapped as `PeerError e` — rather than hanging. -/
theorem C2_client_error_resolves_wait (openS : Option (Nat × Option Unit))
    (errS : Option (Nat × Option FfiError)) (tp : Nat) (e : ClientError)
    (hopen : ∀ (t : Nat) (x : Option Unit), openS = some (t, x) → tp < t)
    (herr : ∀ (t : Nat) (x : Option FfiError), errS = some (t, x) → tp < t) :
    DataConnection.wait_for_open openS errS (some (tp, BroadcastRecv.ok e)) =
      [(tp, Except.error (DataConnectionError.peerError e))] := by
  rcases openS with _ | ⟨t1, x1⟩
  · rcases errS with _ | ⟨t2, x2⟩
    · rfl
    · have ht2 : tp < t2 := herr t2 x2 rfl
      have h1 : ¬ (t2 ≤ tp) := by omega
      have h2 : tp ≤ t2 := by omega
      simp [DataConnection.wait_for_open, select3, winsAgainst, PeerErrorHandle.recv, h1, h2]
  · rcases errS with _ | ⟨t2, x2⟩
    · have ht1 : tp < t1 := hopen t1 x1 rfl
      have h1 : ¬ (t1 ≤ tp) := by omega
      have h2 : tp ≤ t1 := by omega
      simp [DataConnection.wait_for_open, select3, winsAgainst, PeerErrorHandle.recv, h1, h2]
    · have ht1 : tp < t1 := hopen t1 x1 rfl
      have ht2 : tp < t2 := herr t2 x2 rfl
      have h1 : ¬ (t1 ≤ tp) := by omega
      have h2 : ¬ (t2 ≤ tp) := by omega
      have h3 : tp ≤ t1 := by omega
      have h4 : tp ≤ t2 := by omega
      simp [DataConnection.wait_for_open, select3, winsAgainst, PeerErrorHandle.recv, h1, h2, h3, h4]

/-- C2 witness. -/
theorem C2_client_error_resolves_wait_witness :
    DataConnection.wait_for_open none none
        (some (3, BroadcastRecv.ok ClientError.network)) =
      [(3, Except.error (DataConnectionError.peerError ClientError.network))] :=
  C2_client_error_resolves_wait none none 3 ClientError.network
    (fun _ _ h => Option.noConfusion h) (fun _ _ h => Option.noConfusion h)

/-- C4: `timeout` yields the operation's value when the operation
completes strictly before the deadline and `Elapsed` when the deadline
elapses strictly first — in each case the single winning outcome, so
the loser's eventual completion is not observable in the result; an
operation that never completes yields `Elapsed`; in particular
`Client::wait_for_open` with the open event never firing and no error
arriving never completes, so under `timeout` it resolves with `Elapsed`
instead of hanging. -/
theorem C4_timeout_spec {α : Type} (d t : Nat) (v : α) :
    (t < d → timeoutRun d [(t, v)] = [TimeoutOutcome.ok v]) ∧
    (d < t → timeoutRun d [(t, v)] = [TimeoutOutcome.elapsed]) ∧
    timeoutRun d ([] : List (Nat × α)) = [TimeoutOutcome.elapsed] ∧
    Client.wait_for_open none none = [] ∧
    timeoutRun d (Client.wait_for_open none none) = [TimeoutOutcome.elapsed] := by
  refine ⟨?_, ?_, rfl, rfl, rfl⟩
  · intro h
    have h1 : t ≤ d := Nat.le_of_lt h
    have h2 : ¬ (d ≤ t) := by omega
    simp [timeoutRun, h1, h2]
  · intro h
    have h1 : ¬ (t ≤ d) := by omega
    have h2 : d ≤ t := Nat.le_of_lt h
    simp [timeoutRun, h1, h2]

/-- C4 witness. -/
theorem C4_timeout_spec_witness :
    timeoutRun 10 [(2, 42)] = [TimeoutOutcome.ok 42] ∧
    timeoutRun 10 [(12, 42)] = [TimeoutOutcome.elapsed] :=
  ⟨(C4_timeout_spec 10 2 42).1 (by decide),
   (C4_timeout_spec 10 12 42).2.1 (by decide)⟩

/-! ## Driver theorems: C5 -/

/-- C5 counterexample: the per-connection driver `send_file`, on its
inner routine's first failure, records the failure's display text as
that connection's status line but leaves the session cancellation
signal unraised — refuting "every session or per-connection driver ...
raises the session's cancellation signal" at this concrete input. -/
theorem C5_counterexample :
    send_file (some (Except.error (SendFileError.closeError
        DataConnectionError.closeCallbackClosed)))
      { status := "File sent. Waiting for confirmation",
        sessionCancelled := false } =
      { status := "Error while waiting for close: Close callback closed unexpectedly",
        sessionCancelled := false } :=
  rfl

/-- C5 amended: the two session drivers (the sender's accept loop
`receive_connections` and the receiver's `receive_file`), on the inner
routine's first failure, record the failure's display text as the
visible status text and raise the session's cancellation signal; the
per-connection driver `send_file` records the failure's display text as
that connection's status line but does not raise the session's
cancellation signal (sibling connections keep running). -/
theorem C5_amended :
    (∀ (e : ReceiveConnectionsError) (s : DriverState),
      receive_connections (some (Except.error e)) s =
        { statusText := e.displayString, cancelled := true }) ∧
    (∀ (e : ReceiveFileError) (s : DriverState),
      receive_file (some (Except.error e)) s =
        { statusText := e.displayString, cancelled := true }) ∧
    (∀ (e : SendFileError) (s : ConnectionState),
      send_file (some (Except.error e)) s =
        { status := e.displayString, sessionCancelled := s.sessionCancelled }) :=
  ⟨fun _ _ => rfl, fun _ _ => rfl, fun _ _ => rfl⟩
